import Mathlib

/-!
# cert-notifier-controller: the reconcile / notification engine

A shallow embedding of `internal/controller/certnotification_controller.go`
and of the API types of `api/v1/certnotification_types.go`.

The controller talks to the outside world (the Kubernetes API client, the
clock, SMTP, Slack, Telegram, standard output).  Every such interaction is
recorded, in program order, in a `Trace`; the answers of the outside world are
given by an `Env`, whose functions receive the whole history so far, so that
any deterministic environment (including one whose answers change from call to
call) is an instance.  Every Go function `f(args) (T, error)` becomes
`f env args tr : result × Trace`, the trace being passed explicitly.
-/

namespace CertNotifier

/-! ## Time (package `time`), taken exactly -/

/-- An instant, in nanoseconds since the epoch (`time.Time`, `metav1.Time`). -/
abbrev Time := Int

/-- A `time.Duration`: a count of nanoseconds. -/
abbrev Duration := Int

/-- The constant `time.Hour`, in nanoseconds. -/
def Hour : Duration := 3600000000000

/-- The exact difference `t - u` of `t.Sub(u)`. -/
def Time.Sub (t u : Time) : Duration := t - u

/-- The exact number of hours of `d.Hours()`, as a rational. -/
def Duration.Hours (d : Duration) : ℚ := (d : ℚ) / (Hour : ℚ)

/-! ## API types (`api/v1/certnotification_types.go` and the Kubernetes types used) -/

/-- The `corev1.SecretKeySelector`: the name of a secret and a key of its data. -/
structure SecretKeySelector where
  Name : String
  Key : String
deriving DecidableEq, Repr, Inhabited

structure EmailConfig where
  From : String
  Password : SecretKeySelector
  To : String
  SMTPHost : String
  SMTPPort : String
deriving DecidableEq, Repr, Inhabited

structure SlackConfig where
  Token : SecretKeySelector
  ChannelID : String
deriving DecidableEq, Repr, Inhabited

structure TelegramConfig where
  BotToken : SecretKeySelector
  ChatID : Int
deriving DecidableEq, Repr, Inhabited

structure CertNotificationSpec where
  EmailConfig : EmailConfig
  SlackConfig : SlackConfig
  TelegramConfig : TelegramConfig
  ExpiryNotificationDays : Int
deriving DecidableEq, Repr, Inhabited

/-- The `CertNotification` resource: object metadata (name, namespace) and spec;
its status is the empty struct. -/
structure CertNotification where
  Name : String
  Namespace : String
  Spec : CertNotificationSpec
deriving DecidableEq, Repr, Inhabited

/-- The `client.ObjectKey` (`types.NamespacedName`). -/
structure ObjectKey where
  Namespace : String
  Name : String
deriving DecidableEq, Repr, Inhabited

/-- The `reconcile.Request`. -/
structure Request where
  NamespacedName : ObjectKey
deriving DecidableEq, Repr, Inhabited

/-- The `reconcile.Result`; the Go zero value is `{}`. -/
structure Result where
  Requeue : Bool := false
  RequeueAfter : Duration := 0
deriving DecidableEq, Repr, Inhabited

structure CertificateStatus where
  NotAfter : Option Time
deriving DecidableEq, Repr, Inhabited

/-- The part of `certmanagerv1.Certificate` the controller can see. -/
structure Certificate where
  Name : String
  Namespace : String
  Status : CertificateStatus
deriving DecidableEq, Repr, Inhabited

/-- The `corev1.Secret`; `Data` is the map from key to bytes, as an association
list (the first entry of a key is the one the map holds). -/
structure Secret where
  Name : String
  Namespace : String
  Data : List (String × String)
deriving DecidableEq, Repr, Inhabited

/-- The value built by `smtp.PlainAuth(identity, username, password, host)`. -/
structure PlainAuth where
  identity : String
  username : String
  password : String
  host : String
deriving DecidableEq, Repr, Inhabited

/-! ## Errors -/

/-- Go `error` values the controller can meet; a nil error is `none` of
`Option Err`. -/
inductive Err where
  /-- an API status error for which `apierrors.IsNotFound` holds -/
  | notFound (msg : String)
  /-- any other error of the API client or of a transport library -/
  | other (msg : String)
  /-- an error built by `fmt.Errorf` -/
  | errorf (msg : String)
deriving DecidableEq, Repr, Inhabited

/-- The text of `err.Error()`. -/
def Err.Error : Err → String
  | .notFound msg => msg
  | .other msg => msg
  | .errorf msg => msg

/-- The library function `client.IgnoreNotFound`: nil for a NotFound error, the
error itself otherwise. -/
def IgnoreNotFound : Err → Option Err
  | .notFound _ => none
  | err => some err

/-! ## Interaction trace and environment -/

/-- One recorded step.  `sendNotifications cert` marks the entry into
`sendNotifications` for `cert` (it is not an external call); all the others are
calls that leave the process. -/
inductive Event where
  /-- the call `r.Get(ctx, req.NamespacedName, &certNotification)` -/
  | getCertNotification (key : ObjectKey)
  /-- the call `r.List(ctx, &certs)` -/
  | listCertificates
  /-- a clock reading `time.Now()` -/
  | now
  /-- entry into `sendNotifications` for this certificate -/
  | sendNotifications (cert : Certificate)
  /-- the call `r.Get(ctx, key, &secret)` -/
  | getSecret (key : ObjectKey)
  /-- the call `smtp.SendMail(addr, auth, from, to, msg)` -/
  | sendMail (addr : String) (auth : PlainAuth) (sender : String) (rcpt : List String) (msg : String)
  /-- the call `slack.New(token).PostMessage(channelID, slack.MsgOptionText(text, false))` -/
  | postMessage (token : String) (channelID : String) (text : String)
  /-- the call `tgbotapi.NewBotAPI(token)` -/
  | newBotAPI (token : String)
  /-- the call `bot.Send(tgbotapi.NewMessage(chatID, text))` on the bot of `token` -/
  | botSend (token : String) (chatID : Int) (text : String)
  /-- a write to standard output (`fmt.Printf`, `fmt.Println`) -/
  | print (text : String)
deriving DecidableEq, Repr, Inhabited

/-- The history of steps, oldest first. -/
abbrev Trace := List Event

/-- The outside world.  Each function answers one kind of call, given the
history before the call. -/
structure Env where
  now : Trace → Time
  getCertNotification : Trace → ObjectKey → Except Err CertNotification
  listCertificates : Trace → Except Err (List Certificate)
  getSecret : Trace → ObjectKey → Except Err Secret
  sendMail : Trace → String → PlainAuth → String → List String → String → Option Err
  postMessage : Trace → String → String → String → Option Err
  newBotAPI : Trace → String → Option Err
  botSend : Trace → String → Int → String → Option Err

/-! ## The controller (`internal/controller/certnotification_controller.go`) -/

def getSecretValue (env : Env) (selector : SecretKeySelector) (namespace_ : String)
    (tr : Trace) : Except Err String × Trace :=
  let key : ObjectKey := { Name := selector.Name, Namespace := namespace_ }
  let tr1 := tr ++ [Event.getSecret key]
  match env.getSecret tr key with
  | .error err => (.error err, tr1)
  | .ok secret =>
    match secret.Data.lookup selector.Key with
    | none =>
      (.error (Err.errorf ("key " ++ selector.Key ++ " not found in secret " ++ selector.Name)), tr1)
    | some value => (.ok value, tr1)

def sendEmail (env : Env) (config : EmailConfig) (tr : Trace) : Option Err × Trace :=
  match getSecretValue env config.Password "default" tr with
  | (.error err, tr1) => (some err, tr1)
  | (.ok password, tr1) =>
    let msg := "Subject: Certificate Expiry Notice\n\nYour certificate is close to expiry."
    let addr := config.SMTPHost ++ ":" ++ config.SMTPPort
    let auth : PlainAuth := ⟨"", config.From, password, config.SMTPHost⟩
    let tr2 := tr1 ++ [Event.sendMail addr auth config.From [config.To] msg]
    match env.sendMail tr1 addr auth config.From [config.To] msg with
    | some err => (some err, tr2 ++ [Event.print ("smtp error: " ++ err.Error)])
    | none => (none, tr2 ++ [Event.print "Sent email successfully\n"])

def sendSlackMessage (env : Env) (config : SlackConfig) (tr : Trace) : Option Err × Trace :=
  match getSecretValue env config.Token "default" tr with
  | (.error err, tr1) => (some err, tr1)
  | (.ok token, tr1) =>
    let msg := "Your certificate is close to expiry."
    let tr2 := tr1 ++ [Event.postMessage token config.ChannelID msg]
    match env.postMessage tr1 token config.ChannelID msg with
    | some err => (some err, tr2 ++ [Event.print ("slack error: " ++ err.Error)])
    | none => (none, tr2 ++ [Event.print "Sent Slack message successfully\n"])

def sendTelegramMessage (env : Env) (config : TelegramConfig) (tr : Trace) : Option Err × Trace :=
  match getSecretValue env config.BotToken "default" tr with
  | (.error err, tr1) => (some err, tr1)
  | (.ok botToken, tr1) =>
    let tr2 := tr1 ++ [Event.newBotAPI botToken]
    match env.newBotAPI tr1 botToken with
    | some err => (some err, tr2 ++ [Event.print ("telegram error: " ++ err.Error)])
    | none =>
      let text := "Your certificate is close to expiry."
      let tr3 := tr2 ++ [Event.botSend botToken config.ChatID text]
      match env.botSend tr2 botToken config.ChatID text with
      | some err => (some err, tr3 ++ [Event.print ("telegram error: " ++ err.Error)])
      | none => (none, tr3 ++ [Event.print "Sent Telegram message successfully\n"])

def sendNotifications (env : Env) (certNotification : CertNotification) (cert : Certificate)
    (tr : Trace) : Option Err × Trace :=
  let tr0 := tr ++ [Event.sendNotifications cert]
  match sendEmail env certNotification.Spec.EmailConfig tr0 with
  | (some err, tr1) => (some err, tr1)
  | (none, tr1) =>
    match sendSlackMessage env certNotification.Spec.SlackConfig tr1 with
    | (some err, tr2) => (some err, tr2)
    | (none, tr2) =>
      match sendTelegramMessage env certNotification.Spec.TelegramConfig tr2 with
      | (some err, tr3) => (some err, tr3)
      | (none, tr3) => (none, tr3)

/-- The loop `for _, cert := range certs.Items` of `Reconcile`: `none` when the
loop runs to its end, `some err` when a `sendNotifications` call returned `err`
(and `Reconcile` returns from inside the loop). -/
def ReconcileLoop (env : Env) (certNotification : CertNotification) :
    List Certificate → Trace → Option Err × Trace
  | [], tr => (none, tr)
  | cert :: rest, tr =>
    match cert.Status.NotAfter with
    | none => ReconcileLoop env certNotification rest tr
    | some notAfter =>
      let daysToExpiry : ℚ := Duration.Hours (Time.Sub notAfter (env.now tr)) / 24
      let tr1 := tr ++ [Event.now]
      if daysToExpiry ≤ (certNotification.Spec.ExpiryNotificationDays : ℚ) then
        match sendNotifications env certNotification cert tr1 with
        | (some err, tr2) => (some err, tr2)
        | (none, tr2) => ReconcileLoop env certNotification rest tr2
      else
        ReconcileLoop env certNotification rest tr1

def Reconcile (env : Env) (req : Request) (tr : Trace) : (Result × Option Err) × Trace :=
  let tr1 := tr ++ [Event.getCertNotification req.NamespacedName]
  match env.getCertNotification tr req.NamespacedName with
  | .error err => (({}, IgnoreNotFound err), tr1)
  | .ok certNotification =>
    let tr2 := tr1 ++ [Event.listCertificates]
    match env.listCertificates tr1 with
    | .error err => (({}, some err), tr2)
    | .ok certs =>
      match ReconcileLoop env certNotification certs tr2 with
      | (some err, tr3) => (({}, some err), tr3)
      | (none, tr3) => (({ RequeueAfter := 24 * Hour }, none), tr3)

/-! ## Reading a trace -/

/-- A lookup in the secret store. -/
def Event.isSecretLookup : Event → Bool
  | .getSecret _ => true
  | _ => false

/-- A call of the e-mail transport. -/
def Event.isSMTP : Event → Bool
  | .sendMail _ _ _ _ _ => true
  | _ => false

/-- A call of the Slack transport. -/
def Event.isSlack : Event → Bool
  | .postMessage _ _ _ => true
  | _ => false

/-- A call of the Telegram transport. -/
def Event.isTelegram : Event → Bool
  | .newBotAPI _ => true
  | .botSend _ _ _ => true
  | _ => false

/-- A call that leaves the process towards the API server, the secret store or
a notification provider. -/
def Event.isExternalCall : Event → Bool
  | .getCertNotification _ => true
  | .listCertificates => true
  | .getSecret _ => true
  | .sendMail _ _ _ _ _ => true
  | .postMessage _ _ _ => true
  | .newBotAPI _ => true
  | .botSend _ _ _ => true
  | _ => false

/-- The message body an event hands to a channel transport, if it hands one. -/
def Event.body : Event → Option String
  | .sendMail _ _ _ _ msg => some msg
  | .postMessage _ _ text => some text
  | .botSend _ _ text => some text
  | _ => none

/-- The certificates for which `sendNotifications` was entered, in order. -/
def dispatched : Trace → List Certificate
  | [] => []
  | .sendNotifications cert :: rest => cert :: dispatched rest
  | _ :: rest => dispatched rest

/-! ## A secret store and sample environments -/

/-- The read interface of the secret store behind `r.Get` (an external
collaborator): the store holds secrets, a lookup by namespace and name returns
the secret held under them, and fails with a NotFound error when there is none. -/
def StoreGet (store : List Secret) (key : ObjectKey) : Except Err Secret :=
  match store.find? (fun s => s.Namespace == key.Namespace && s.Name == key.Name) with
  | some secret => .ok secret
  | none => .error (Err.notFound ("secrets \"" ++ key.Name ++ "\" not found"))

/-- An environment over a secret store, a policy and a listing, with the clock
fixed at `t`, in which every transport call succeeds. -/
def storeEnv (store : List Secret) (policy : CertNotification) (certs : List Certificate)
    (t : Time) : Env where
  now := fun _ => t
  getCertNotification := fun _ _ => .ok policy
  listCertificates := fun _ => .ok certs
  getSecret := fun _ key => StoreGet store key
  sendMail := fun _ _ _ _ _ _ => none
  postMessage := fun _ _ _ _ => none
  newBotAPI := fun _ _ => none
  botSend := fun _ _ _ _ => none

/-- A secret of namespace `default` holding the three credentials. -/
def sampleSecret : Secret :=
  { Name := "creds", Namespace := "default",
    Data := [("password", "pw"), ("token", "xoxb"), ("bot", "42:abc")] }

/-- A policy with the three channels configured and a threshold of 30 days. -/
def samplePolicy : CertNotification :=
  { Name := "policy", Namespace := "ops",
    Spec :=
      { EmailConfig :=
          { From := "a@x", Password := ⟨"creds", "password"⟩, To := "b@x",
            SMTPHost := "smtp.x", SMTPPort := "25" },
        SlackConfig := { Token := ⟨"creds", "token"⟩, ChannelID := "C1" },
        TelegramConfig := { BotToken := ⟨"creds", "bot"⟩, ChatID := 7 },
        ExpiryNotificationDays := 30 } }

/-- The policy whose three channel configurations are the Go zero value. -/
def zeroPolicy : CertNotification :=
  { Name := "policy", Namespace := "ops",
    Spec :=
      { EmailConfig := { From := "", Password := ⟨"", ""⟩, To := "", SMTPHost := "", SMTPPort := "" },
        SlackConfig := { Token := ⟨"", ""⟩, ChannelID := "" },
        TelegramConfig := { BotToken := ⟨"", ""⟩, ChatID := 0 },
        ExpiryNotificationDays := 30 } }

/-- A certificate by name and expiry. -/
def mkCert (name : String) (notAfter : Option Time) : Certificate :=
  { Name := name, Namespace := "default", Status := { NotAfter := notAfter } }

/-- One day, in nanoseconds. -/
def Day : Duration := 24 * Hour

/-! ## Fixed texts and the steps of a successful channel -/

/-- The fixed body of the e-mail. -/
def emailMsg : String :=
  "Subject: Certificate Expiry Notice\n\nYour certificate is close to expiry."

/-- The fixed text of the Slack and Telegram messages. -/
def chatMsg : String := "Your certificate is close to expiry."

/-- The steps of a successful `sendEmail` that resolved the password `pw`. -/
def emailSteps (config : EmailConfig) (pw : String) : List Event :=
  [Event.getSecret ⟨"default", config.Password.Name⟩,
    Event.sendMail (config.SMTPHost ++ ":" ++ config.SMTPPort)
      ⟨"", config.From, pw, config.SMTPHost⟩ config.From [config.To] emailMsg,
    Event.print "Sent email successfully\n"]

/-- The steps of a successful `sendSlackMessage` that resolved the token `token`. -/
def slackSteps (config : SlackConfig) (token : String) : List Event :=
  [Event.getSecret ⟨"default", config.Token.Name⟩,
    Event.postMessage token config.ChannelID chatMsg,
    Event.print "Sent Slack message successfully\n"]

/-- The steps of a successful `sendTelegramMessage` that resolved the token `token`. -/
def telegramSteps (config : TelegramConfig) (token : String) : List Event :=
  [Event.getSecret ⟨"default", config.BotToken.Name⟩,
    Event.newBotAPI token, Event.botSend token config.ChatID chatMsg,
    Event.print "Sent Telegram message successfully\n"]

/-! ## The evaluator of the specification -/

theorem getSecretValue_trace (env : Env) (selector : SecretKeySelector) (ns : String)
    (tr : Trace) :
    (getSecretValue env selector ns tr).2 = tr ++ [Event.getSecret ⟨ns, selector.Name⟩] := by
  unfold getSecretValue
  cases h : env.getSecret tr ⟨ns, selector.Name⟩ with
  | error e => simp [h]
  | ok s => cases h2 : s.Data.lookup selector.Key <;> simp [h, h2]

/-- What `getSecretValue` returns, read off the answer of the store. -/
theorem getSecretValue_result (env : Env) (selector : SecretKeySelector) (ns : String)
    (tr : Trace) :
    (getSecretValue env selector ns tr).1 =
      match env.getSecret tr ⟨ns, selector.Name⟩ with
      | .error err => .error err
      | .ok secret =>
        match secret.Data.lookup selector.Key with
        | none =>
          .error (Err.errorf ("key " ++ selector.Key ++ " not found in secret " ++ selector.Name))
        | some value => .ok value := by
  unfold getSecretValue
  cases h : env.getSecret tr ⟨ns, selector.Name⟩ with
  | error e => simp [h]
  | ok s => cases h2 : s.Data.lookup selector.Key <;> simp [h, h2]

theorem getSecretValue_eq (env : Env) (selector : SecretKeySelector) (ns : String)
    (tr : Trace) :
    getSecretValue env selector ns tr =
      ((getSecretValue env selector ns tr).1, tr ++ [Event.getSecret ⟨ns, selector.Name⟩]) := by
  rw [← getSecretValue_trace]

/-- The three ways `sendEmail` can run: the credential is not resolved; the
SMTP call fails; everything succeeds. -/
theorem sendEmail_cases (env : Env) (config : EmailConfig) (tr : Trace) :
    (∃ err, (getSecretValue env config.Password "default" tr).1 = .error err ∧
      sendEmail env config tr
        = (some err, tr ++ [Event.getSecret ⟨"default", config.Password.Name⟩])) ∨
    (∃ pw err, (getSecretValue env config.Password "default" tr).1 = .ok pw ∧
      env.sendMail (tr ++ [Event.getSecret ⟨"default", config.Password.Name⟩])
        (config.SMTPHost ++ ":" ++ config.SMTPPort) ⟨"", config.From, pw, config.SMTPHost⟩
        config.From [config.To] emailMsg = some err ∧
      sendEmail env config tr
        = (some err, tr ++ [Event.getSecret ⟨"default", config.Password.Name⟩,
            Event.sendMail (config.SMTPHost ++ ":" ++ config.SMTPPort)
              ⟨"", config.From, pw, config.SMTPHost⟩ config.From [config.To] emailMsg,
            Event.print ("smtp error: " ++ err.Error)])) ∨
    (∃ pw, (getSecretValue env config.Password "default" tr).1 = .ok pw ∧
      env.sendMail (tr ++ [Event.getSecret ⟨"default", config.Password.Name⟩])
        (config.SMTPHost ++ ":" ++ config.SMTPPort) ⟨"", config.From, pw, config.SMTPHost⟩
        config.From [config.To] emailMsg = none ∧
      sendEmail env config tr
        = (none, tr ++ [Event.getSecret ⟨"default", config.Password.Name⟩,
            Event.sendMail (config.SMTPHost ++ ":" ++ config.SMTPPort)
              ⟨"", config.From, pw, config.SMTPHost⟩ config.From [config.To] emailMsg,
            Event.print "Sent email successfully\n"])) := by
  unfold sendEmail emailMsg
  rw [getSecretValue_eq]
  cases h : (getSecretValue env config.Password "default" tr).1 with
  | error e => left; exact ⟨e, rfl, rfl⟩
  | ok pw =>
    right
    simp only []
    split
    · next err hs => left; exact ⟨pw, err, rfl, hs, by simp⟩
    · next hs => right; exact ⟨pw, rfl, hs, by simp⟩

/-- The three ways `sendSlackMessage` can run. -/
theorem sendSlackMessage_cases (env : Env) (config : SlackConfig) (tr : Trace) :
    (∃ err, (getSecretValue env config.Token "default" tr).1 = .error err ∧
      sendSlackMessage env config tr
        = (some err, tr ++ [Event.getSecret ⟨"default", config.Token.Name⟩])) ∨
    (∃ token err, (getSecretValue env config.Token "default" tr).1 = .ok token ∧
      env.postMessage (tr ++ [Event.getSecret ⟨"default", config.Token.Name⟩])
        token config.ChannelID chatMsg = some err ∧
      sendSlackMessage env config tr
        = (some err, tr ++ [Event.getSecret ⟨"default", config.Token.Name⟩,
            Event.postMessage token config.ChannelID chatMsg,
            Event.print ("slack error: " ++ err.Error)])) ∨
    (∃ token, (getSecretValue env config.Token "default" tr).1 = .ok token ∧
      env.postMessage (tr ++ [Event.getSecret ⟨"default", config.Token.Name⟩])
        token config.ChannelID chatMsg = none ∧
      sendSlackMessage env config tr
        = (none, tr ++ [Event.getSecret ⟨"default", config.Token.Name⟩,
            Event.postMessage token config.ChannelID chatMsg,
            Event.print "Sent Slack message successfully\n"])) := by
  unfold sendSlackMessage chatMsg
  rw [getSecretValue_eq]
  cases h : (getSecretValue env config.Token "default" tr).1 with
  | error e => left; exact ⟨e, rfl, rfl⟩
  | ok token =>
    right
    simp only []
    split
    · next err hs => left; exact ⟨token, err, rfl, hs, by simp⟩
    · next hs => right; exact ⟨token, rfl, hs, by simp⟩

/-- The four ways `sendTelegramMessage` can run. -/
theorem sendTelegramMessage_cases (env : Env) (config : TelegramConfig) (tr : Trace) :
    (∃ err, (getSecretValue env config.BotToken "default" tr).1 = .error err ∧
      sendTelegramMessage env config tr
        = (some err, tr ++ [Event.getSecret ⟨"default", config.BotToken.Name⟩])) ∨
    (∃ token err, (getSecretValue env config.BotToken "default" tr).1 = .ok token ∧
      env.newBotAPI (tr ++ [Event.getSecret ⟨"default", config.BotToken.Name⟩]) token
        = some err ∧
      sendTelegramMessage env config tr
        = (some err, tr ++ [Event.getSecret ⟨"default", config.BotToken.Name⟩,
            Event.newBotAPI token, Event.print ("telegram error: " ++ err.Error)])) ∨
    (∃ token err, (getSecretValue env config.BotToken "default" tr).1 = .ok token ∧
      env.newBotAPI (tr ++ [Event.getSecret ⟨"default", config.BotToken.Name⟩]) token
        = none ∧
      env.botSend (tr ++ [Event.getSecret ⟨"default", config.BotToken.Name⟩,
          Event.newBotAPI token]) token config.ChatID chatMsg = some err ∧
      sendTelegramMessage env config tr
        = (some err, tr ++ [Event.getSecret ⟨"default", config.BotToken.Name⟩,
            Event.newBotAPI token, Event.botSend token config.ChatID chatMsg,
            Event.print ("telegram error: " ++ err.Error)])) ∨
    (∃ token, (getSecretValue env config.BotToken "default" tr).1 = .ok token ∧
      env.newBotAPI (tr ++ [Event.getSecret ⟨"default", config.BotToken.Name⟩]) token
        = none ∧
      env.botSend (tr ++ [Event.getSecret ⟨"default", config.BotToken.Name⟩,
          Event.newBotAPI token]) token config.ChatID chatMsg = none ∧
      sendTelegramMessage env config tr
        = (none, tr ++ [Event.getSecret ⟨"default", config.BotToken.Name⟩,
            Event.newBotAPI token, Event.botSend token config.ChatID chatMsg,
            Event.print "Sent Telegram message successfully\n"])) := by
  unfold sendTelegramMessage chatMsg
  rw [getSecretValue_eq]
  cases h : (getSecretValue env config.BotToken "default" tr).1 with
  | error e => left; exact ⟨e, rfl, rfl⟩
  | ok token =>
    right
    simp only []
    split
    · next err hs => left; exact ⟨token, err, rfl, hs, by simp⟩
    · next hs =>
      right
      split
      · next err hs2 => left; exact ⟨token, err, rfl, hs, by simpa using hs2, by simp⟩
      · next hs2 => right; exact ⟨token, rfl, hs, by simpa using hs2, by simp⟩

/-- The eight ways `sendNotifications` can run, each with its result and the
steps it adds after the entry mark: seven failures (two in Email, two in Slack,
three in Telegram) and the one success. -/
theorem sendNotifications_cases (env : Env) (certNotification : CertNotification)
    (cert : Certificate) (tr : Trace) :
    (∃ e, sendNotifications env certNotification cert tr
      = (some e, tr ++ Event.sendNotifications cert ::
          [Event.getSecret ⟨"default", certNotification.Spec.EmailConfig.Password.Name⟩])) ∨
    (∃ pw e, sendNotifications env certNotification cert tr
      = (some e, tr ++ Event.sendNotifications cert ::
          [Event.getSecret ⟨"default", certNotification.Spec.EmailConfig.Password.Name⟩,
            Event.sendMail (certNotification.Spec.EmailConfig.SMTPHost ++ ":" ++
                certNotification.Spec.EmailConfig.SMTPPort)
              ⟨"", certNotification.Spec.EmailConfig.From, pw,
                certNotification.Spec.EmailConfig.SMTPHost⟩
              certNotification.Spec.EmailConfig.From [certNotification.Spec.EmailConfig.To]
              emailMsg,
            Event.print ("smtp error: " ++ e.Error)])) ∨
    (∃ pw e, sendNotifications env certNotification cert tr
      = (some e, tr ++ Event.sendNotifications cert ::
          (emailSteps certNotification.Spec.EmailConfig pw ++
            [Event.getSecret ⟨"default", certNotification.Spec.SlackConfig.Token.Name⟩]))) ∨
    (∃ pw tok e, sendNotifications env certNotification cert tr
      = (some e, tr ++ Event.sendNotifications cert ::
          (emailSteps certNotification.Spec.EmailConfig pw ++
            [Event.getSecret ⟨"default", certNotification.Spec.SlackConfig.Token.Name⟩,
              Event.postMessage tok certNotification.Spec.SlackConfig.ChannelID chatMsg,
              Event.print ("slack error: " ++ e.Error)]))) ∨
    (∃ pw tok e, sendNotifications env certNotification cert tr
      = (some e, tr ++ Event.sendNotifications cert ::
          (emailSteps certNotification.Spec.EmailConfig pw ++
            slackSteps certNotification.Spec.SlackConfig tok ++
            [Event.getSecret
              ⟨"default", certNotification.Spec.TelegramConfig.BotToken.Name⟩]))) ∨
    (∃ pw tok bt e, sendNotifications env certNotification cert tr
      = (some e, tr ++ Event.sendNotifications cert ::
          (emailSteps certNotification.Spec.EmailConfig pw ++
            slackSteps certNotification.Spec.SlackConfig tok ++
            [Event.getSecret ⟨"default", certNotification.Spec.TelegramConfig.BotToken.Name⟩,
              Event.newBotAPI bt, Event.print ("telegram error: " ++ e.Error)]))) ∨
    (∃ pw tok bt e, sendNotifications env certNotification cert tr
      = (some e, tr ++ Event.sendNotifications cert ::
          (emailSteps certNotification.Spec.EmailConfig pw ++
            slackSteps certNotification.Spec.SlackConfig tok ++
            [Event.getSecret ⟨"default", certNotification.Spec.TelegramConfig.BotToken.Name⟩,
              Event.newBotAPI bt,
              Event.botSend bt certNotification.Spec.TelegramConfig.ChatID chatMsg,
              Event.print ("telegram error: " ++ e.Error)]))) ∨
    (∃ pw tok bt, sendNotifications env certNotification cert tr
      = (none, tr ++ Event.sendNotifications cert ::
          (emailSteps certNotification.Spec.EmailConfig pw ++
            slackSteps certNotification.Spec.SlackConfig tok ++
            telegramSteps certNotification.Spec.TelegramConfig bt))) := by
  unfold sendNotifications
  simp only []
  rcases sendEmail_cases env certNotification.Spec.EmailConfig
      (tr ++ [Event.sendNotifications cert]) with
    ⟨e, -, h1⟩ | ⟨pw, e, -, -, h1⟩ | ⟨pw, -, -, h1⟩
  · rw [h1]; left; exact ⟨e, by simp⟩
  · rw [h1]; right; left; exact ⟨pw, e, by simp⟩
  · rw [h1]
    simp only []
    right; right
    rcases sendSlackMessage_cases env certNotification.Spec.SlackConfig
        (tr ++ [Event.sendNotifications cert] ++
          [Event.getSecret ⟨"default", certNotification.Spec.EmailConfig.Password.Name⟩,
            Event.sendMail (certNotification.Spec.EmailConfig.SMTPHost ++ ":" ++
                certNotification.Spec.EmailConfig.SMTPPort)
              ⟨"", certNotification.Spec.EmailConfig.From, pw,
                certNotification.Spec.EmailConfig.SMTPHost⟩
              certNotification.Spec.EmailConfig.From [certNotification.Spec.EmailConfig.To]
              emailMsg,
            Event.print "Sent email successfully\n"]) with
      ⟨e, -, h2⟩ | ⟨tok, e, -, -, h2⟩ | ⟨tok, -, -, h2⟩
    · rw [h2]; left; exact ⟨pw, e, by simp [emailSteps]⟩
    · rw [h2]; right; left; exact ⟨pw, tok, e, by simp [emailSteps]⟩
    · rw [h2]
      simp only []
      right; right
      rcases sendTelegramMessage_cases env certNotification.Spec.TelegramConfig
          (tr ++ [Event.sendNotifications cert] ++
            [Event.getSecret ⟨"default", certNotification.Spec.EmailConfig.Password.Name⟩,
              Event.sendMail (certNotification.Spec.EmailConfig.SMTPHost ++ ":" ++
                  certNotification.Spec.EmailConfig.SMTPPort)
                ⟨"", certNotification.Spec.EmailConfig.From, pw,
                  certNotification.Spec.EmailConfig.SMTPHost⟩
                certNotification.Spec.EmailConfig.From [certNotification.Spec.EmailConfig.To]
                emailMsg,
              Event.print "Sent email successfully\n"] ++
            [Event.getSecret ⟨"default", certNotification.Spec.SlackConfig.Token.Name⟩,
              Event.postMessage tok certNotification.Spec.SlackConfig.ChannelID chatMsg,
              Event.print "Sent Slack message successfully\n"]) with
        ⟨e, -, h3⟩ | ⟨bt, e, -, -, h3⟩ | ⟨bt, e, -, -, -, h3⟩ | ⟨bt, -, -, -, h3⟩
      · rw [h3]; left; exact ⟨pw, tok, e, by simp [emailSteps, slackSteps]⟩
      · rw [h3]; right; left; exact ⟨pw, tok, bt, e, by simp [emailSteps, slackSteps]⟩
      · rw [h3]; right; right; left
        exact ⟨pw, tok, bt, e, by simp [emailSteps, slackSteps]⟩
      · rw [h3]; right; right; right
        exact ⟨pw, tok, bt, by simp [emailSteps, slackSteps, telegramSteps]⟩

/-- After its entry mark, a run of `sendNotifications` enters no further
`sendNotifications`. -/
theorem sendNotifications_dispatched (env : Env) (certNotification : CertNotification)
    (cert : Certificate) (tr : Trace) :
    ∃ ev, (sendNotifications env certNotification cert tr).2
        = tr ++ Event.sendNotifications cert :: ev ∧ dispatched ev = [] := by
  rcases sendNotifications_cases env certNotification cert tr with
    ⟨e, h⟩ | ⟨pw, e, h⟩ | ⟨pw, e, h⟩ | ⟨pw, tok, e, h⟩ | ⟨pw, tok, e, h⟩ |
    ⟨pw, tok, bt, e, h⟩ | ⟨pw, tok, bt, e, h⟩ | ⟨pw, tok, bt, h⟩ <;>
    exact ⟨_, by rw [h], by simp [dispatched, emailSteps, slackSteps, telegramSteps]⟩

/-- C2 (amended): `sendNotifications` has no "not configured" case.  For every
policy, the one whose three channel configurations are the zero value included,
its first step after entry is the lookup of the secret named by
`EmailConfig.Password` in namespace `default`; and when it returns a nil error
it has also looked up the Slack and the Telegram secret and made one SMTP call,
one Slack call and the two Telegram calls. -/
theorem sendNotifications_attempts_every_channel (env : Env)
    (certNotification : CertNotification) (cert : Certificate) (tr : Trace) :
    ∃ ev, (sendNotifications env certNotification cert tr).2
        = tr ++ Event.sendNotifications cert ::
            Event.getSecret ⟨"default", certNotification.Spec.EmailConfig.Password.Name⟩ :: ev ∧
      ((sendNotifications env certNotification cert tr).1 = none →
        ev.filter Event.isSecretLookup
          = [Event.getSecret ⟨"default", certNotification.Spec.SlackConfig.Token.Name⟩,
             Event.getSecret ⟨"default", certNotification.Spec.TelegramConfig.BotToken.Name⟩] ∧
        (ev.filter Event.isSMTP).length = 1 ∧
        (ev.filter Event.isSlack).length = 1 ∧
        (ev.filter Event.isTelegram).length = 2) := by
  rcases sendNotifications_cases env certNotification cert tr with
    ⟨e, h⟩ | ⟨pw, e, h⟩ | ⟨pw, e, h⟩ | ⟨pw, tok, e, h⟩ | ⟨pw, tok, e, h⟩ |
    ⟨pw, tok, bt, e, h⟩ | ⟨pw, tok, bt, e, h⟩ | ⟨pw, tok, bt, h⟩ <;>
    exact ⟨_, by rw [h]; all_goals (simp [emailSteps]; rfl),
      by simp [h, slackSteps, telegramSteps, Event.isSecretLookup, Event.isSMTP,
        Event.isSlack, Event.isTelegram]⟩

/-- C2 (counterexample): with the all-zero policy and an empty secret store,
`sendNotifications` looks up the secret named `""` in namespace `default` and
returns the store's NotFound error. -/
theorem sendNotifications_zero_config_fails :
    sendNotifications (storeEnv [] zeroPolicy [] 0) zeroPolicy (mkCert "web" (some 0)) []
      = (some (Err.notFound "secrets \"\" not found"),
          [Event.sendNotifications (mkCert "web" (some 0)),
            Event.getSecret ⟨"default", ""⟩]) ∧
    (sendNotifications (storeEnv [] zeroPolicy [] 0) zeroPolicy (mkCert "web" (some 0))
        []).2.any Event.isExternalCall = true := by
  decide

/-- C2 (witness): with the three channels configured and their credentials in
the store, the dispatch succeeds and has made the two Telegram calls. -/
theorem sendNotifications_attempts_every_channel_witness :
    ∃ ev, (sendNotifications (storeEnv [sampleSecret] samplePolicy [] 0) samplePolicy
        (mkCert "web" (some 0)) []).2
        = [] ++ Event.sendNotifications (mkCert "web" (some 0)) ::
            Event.getSecret ⟨"default", "creds"⟩ :: ev ∧
      (ev.filter Event.isSMTP).length = 1 ∧
      (ev.filter Event.isSlack).length = 1 ∧
      (ev.filter Event.isTelegram).length = 2 := by
  obtain ⟨ev, h1, h2⟩ := sendNotifications_attempts_every_channel
    (storeEnv [sampleSecret] samplePolicy [] 0) samplePolicy (mkCert "web" (some 0)) []
  exact ⟨ev, h1, (h2 rfl).2⟩

/-- C8 (amended): the message bodies `sendNotifications` hands to the channel
transports are fixed texts that do not depend on the certificate: in order, the
e-mail body `emailMsg`, the Slack text `chatMsg` and the Telegram text
`chatMsg` (a beginning of this list when a channel fails, all of it on
success). -/
theorem sendNotifications_message_fixed (env : Env) (certNotification : CertNotification)
    (cert : Certificate) (tr : Trace) :
    ∃ ev, (sendNotifications env certNotification cert tr).2
        = tr ++ Event.sendNotifications cert :: ev ∧
      ev.filterMap Event.body <+: [emailMsg, chatMsg, chatMsg] ∧
      ((sendNotifications env certNotification cert tr).1 = none →
        ev.filterMap Event.body = [emailMsg, chatMsg, chatMsg]) := by
  rcases sendNotifications_cases env certNotification cert tr with
    ⟨e, h⟩ | ⟨pw, e, h⟩ | ⟨pw, e, h⟩ | ⟨pw, tok, e, h⟩ | ⟨pw, tok, e, h⟩ |
    ⟨pw, tok, bt, e, h⟩ | ⟨pw, tok, bt, e, h⟩ | ⟨pw, tok, bt, h⟩
  · exact ⟨_, by rw [h], ⟨_, by simp [Event.body]; rfl⟩, by simp [h]⟩
  · exact ⟨_, by rw [h], ⟨[chatMsg, chatMsg], by simp [Event.body]⟩, by simp [h]⟩
  · exact ⟨_, by rw [h], ⟨[chatMsg, chatMsg], by simp [Event.body, emailSteps]⟩, by simp [h]⟩
  · exact ⟨_, by rw [h], ⟨[chatMsg], by simp [Event.body, emailSteps]⟩, by simp [h]⟩
  · exact ⟨_, by rw [h], ⟨[chatMsg], by simp [Event.body, emailSteps, slackSteps]⟩,
      by simp [h]⟩
  · exact ⟨_, by rw [h], ⟨[chatMsg], by simp [Event.body, emailSteps, slackSteps]⟩,
      by simp [h]⟩
  · exact ⟨_, by rw [h], ⟨[], by simp [Event.body, emailSteps, slackSteps]⟩, by simp [h]⟩
  · exact ⟨_, by rw [h], ⟨[], by simp [Event.body, emailSteps, slackSteps, telegramSteps]⟩,
      by simp [Event.body, emailSteps, slackSteps, telegramSteps]⟩

/-- C8 (counterexample): two certificates with different names and different
expiry times are dispatched with the same three message bodies. -/
theorem sendNotifications_same_bodies :
    (mkCert "web" (some Day)).Name ≠ (mkCert "db" (some (9 * Day))).Name ∧
    (mkCert "web" (some Day)).Status.NotAfter ≠ (mkCert "db" (some (9 * Day))).Status.NotAfter ∧
    (sendNotifications (storeEnv [sampleSecret] samplePolicy [] 0) samplePolicy
        (mkCert "web" (some Day)) []).2.filterMap Event.body
      = [emailMsg, chatMsg, chatMsg] ∧
    (sendNotifications (storeEnv [sampleSecret] samplePolicy [] 0) samplePolicy
        (mkCert "db" (some (9 * Day))) []).2.filterMap Event.body
      = [emailMsg, chatMsg, chatMsg] := by
  decide

/-- C8 (witness): a successful dispatch hands over exactly the three fixed
texts. -/
theorem sendNotifications_message_fixed_witness :
    ∃ ev, (sendNotifications (storeEnv [sampleSecret] samplePolicy [] 0) samplePolicy
        (mkCert "web" (some Day)) []).2
        = [] ++ Event.sendNotifications (mkCert "web" (some Day)) :: ev ∧
      ev.filterMap Event.body = [emailMsg, chatMsg, chatMsg] := by
  obtain ⟨ev, h1, -, h2⟩ := sendNotifications_message_fixed
    (storeEnv [sampleSecret] samplePolicy [] 0) samplePolicy (mkCert "web" (some Day)) []
  exact ⟨ev, h1, h2 rfl⟩

/-- C10: every secret lookup of `sendEmail`, `sendSlackMessage` and
`sendTelegramMessage`, hence of `sendNotifications`, is made in namespace
`default`; and two policies with the same spec (whatever their own namespace
and name) give the same outcome and the same steps of `sendNotifications`. -/
theorem credential_lookups_in_default (env : Env) (p q : CertNotification)
    (cert : Certificate) (tr : Trace) (hspec : p.Spec = q.Spec) :
    (∀ config t, ∃ ev, (sendEmail env config t).2 = t ++ ev ∧
      ∀ key, Event.getSecret key ∈ ev → key.Namespace = "default") ∧
    (∀ config t, ∃ ev, (sendSlackMessage env config t).2 = t ++ ev ∧
      ∀ key, Event.getSecret key ∈ ev → key.Namespace = "default") ∧
    (∀ config t, ∃ ev, (sendTelegramMessage env config t).2 = t ++ ev ∧
      ∀ key, Event.getSecret key ∈ ev → key.Namespace = "default") ∧
    (∃ ev, (sendNotifications env p cert tr).2 = tr ++ ev ∧
      ∀ key, Event.getSecret key ∈ ev → key.Namespace = "default") ∧
    sendNotifications env p cert tr = sendNotifications env q cert tr := by
  refine ⟨?_, ?_, ?_, ?_, ?_⟩
  · intro config t
    rcases sendEmail_cases env config t with ⟨e, -, h⟩ | ⟨pw, e, -, -, h⟩ | ⟨pw, -, -, h⟩ <;>
      exact ⟨_, by rw [h], by
        intro key hk
        simp at hk
        rw [hk]⟩
  · intro config t
    rcases sendSlackMessage_cases env config t with
      ⟨e, -, h⟩ | ⟨pw, e, -, -, h⟩ | ⟨pw, -, -, h⟩ <;>
      exact ⟨_, by rw [h], by
        intro key hk
        simp at hk
        rw [hk]⟩
  · intro config t
    rcases sendTelegramMessage_cases env config t with
      ⟨e, -, h⟩ | ⟨pw, e, -, -, h⟩ | ⟨pw, e, -, -, -, h⟩ | ⟨pw, -, -, -, h⟩ <;>
      exact ⟨_, by rw [h], by
        intro key hk
        simp at hk
        rw [hk]⟩
  · rcases sendNotifications_cases env p cert tr with
      ⟨e, h⟩ | ⟨pw, e, h⟩ | ⟨pw, e, h⟩ | ⟨pw, tok, e, h⟩ | ⟨pw, tok, e, h⟩ |
      ⟨pw, tok, bt, e, h⟩ | ⟨pw, tok, bt, e, h⟩ | ⟨pw, tok, bt, h⟩ <;>
      exact ⟨_, by rw [h], by
        intro key hk
        simp [emailSteps, slackSteps, telegramSteps] at hk
        aesop⟩
  · unfold sendNotifications
    rw [hspec]

/-- C10 (witness): a policy of namespace `ops` and its copy in namespace `dev`. -/
theorem credential_lookups_in_default_witness :
    samplePolicy.Namespace ≠ ({ samplePolicy with Namespace := "dev" } : CertNotification).Namespace ∧
    sendNotifications (storeEnv [sampleSecret] samplePolicy [] 0) samplePolicy
        (mkCert "web" (some Day)) []
      = sendNotifications (storeEnv [sampleSecret] samplePolicy [] 0)
          { samplePolicy with Namespace := "dev" } (mkCert "web" (some Day)) [] :=
  ⟨by decide,
    (credential_lookups_in_default (storeEnv [sampleSecret] samplePolicy [] 0) samplePolicy
      { samplePolicy with Namespace := "dev" } (mkCert "web" (some Day)) [] rfl).2.2.2.2⟩

/-! ## Credential resolution -/

/-- C5: `getSecretValue` against a secret store.  When the store holds no
secret of that name in that namespace, it fails with the store's NotFound
error; when the store holds one whose data has no entry for the key, it fails
with `key <key> not found in secret <name>`; when the data has an entry for the
key, it returns the value stored there. -/
theorem getSecretValue_store (env : Env) (store : List Secret) (selector : SecretKeySelector)
    (ns : String) (tr : Trace)
    (hstore : env.getSecret tr ⟨ns, selector.Name⟩ = StoreGet store ⟨ns, selector.Name⟩) :
    ((∀ s ∈ store, ¬ (s.Namespace = ns ∧ s.Name = selector.Name)) →
      ∃ msg, StoreGet store ⟨ns, selector.Name⟩ = .error (Err.notFound msg) ∧
        (getSecretValue env selector ns tr).1 = .error (Err.notFound msg)) ∧
    (∀ secret,
      store.find? (fun s => s.Namespace == ns && s.Name == selector.Name) = some secret →
      ((∀ v, (selector.Key, v) ∉ secret.Data) →
        (getSecretValue env selector ns tr).1
          = .error (Err.errorf
              ("key " ++ selector.Key ++ " not found in secret " ++ selector.Name))) ∧
      (∀ value, secret.Data.lookup selector.Key = some value →
        (getSecretValue env selector ns tr).1 = .ok value)) := by
  rw [getSecretValue_result, hstore]
  refine ⟨?_, ?_⟩
  · intro hnone
    have hfind : store.find? (fun s => s.Namespace == ns && s.Name == selector.Name) = none := by
      rw [List.find?_eq_none]
      intro s hs
      simpa using hnone s hs
    exact ⟨"secrets \"" ++ selector.Name ++ "\" not found", by simp [StoreGet, hfind],
      by simp [StoreGet, hfind]⟩
  · intro secret hfind
    refine ⟨?_, ?_⟩
    · intro hkey
      have hlook : secret.Data.lookup selector.Key = none := by
        rw [List.lookup_eq_none_iff]
        intro p hp
        rw [bne_iff_ne]
        intro hk
        apply hkey p.2
        rw [hk]
        exact hp
      simp [StoreGet, hfind, hlook]
    · intro value hlook
      simp [StoreGet, hfind, hlook]

/-- C5 (witness): the three outcomes on a store holding one secret. -/
theorem getSecretValue_store_witness :
    (getSecretValue (storeEnv [sampleSecret] samplePolicy [] 0) ⟨"creds", "password"⟩
        "default" []).1 = .ok "pw" ∧
    (getSecretValue (storeEnv [sampleSecret] samplePolicy [] 0) ⟨"creds", "nokey"⟩
        "default" []).1 = .error (Err.errorf "key nokey not found in secret creds") ∧
    (∃ msg, StoreGet [sampleSecret] ⟨"default", "absent"⟩ = .error (Err.notFound msg) ∧
      (getSecretValue (storeEnv [sampleSecret] samplePolicy [] 0) ⟨"absent", "password"⟩
        "default" []).1 = .error (Err.notFound msg)) :=
  ⟨((getSecretValue_store (storeEnv [sampleSecret] samplePolicy [] 0) [sampleSecret]
        ⟨"creds", "password"⟩ "default" [] rfl).2 sampleSecret (by decide)).2 "pw" (by decide),
    ((getSecretValue_store (storeEnv [sampleSecret] samplePolicy [] 0) [sampleSecret]
        ⟨"creds", "nokey"⟩ "default" [] rfl).2 sampleSecret (by decide)).1
      (by simp [sampleSecret]),
    (getSecretValue_store (storeEnv [sampleSecret] samplePolicy [] 0) [sampleSecret]
        ⟨"absent", "password"⟩ "default" [] rfl).1 (by decide)⟩

/-! ## The loop of `Reconcile` -/

/-- The expiry test of the loop, in whole nanoseconds: `daysToExpiry ≤ T` holds
exactly when the time left is at most `T` days. -/
theorem daysToExpiry_le_iff (notAfter now : Time) (T : Int) :
    Duration.Hours (Time.Sub notAfter now) / 24 ≤ (T : ℚ) ↔ notAfter - now ≤ T * Day := by
  unfold Duration.Hours Time.Sub Day Hour
  rw [div_div, div_le_iff₀ (by norm_num)]
  norm_cast

theorem ReconcileLoop_cons_absent (env : Env) (n : CertNotification) (cert : Certificate)
    (rest : List Certificate) (tr : Trace) (h : cert.Status.NotAfter = none) :
    ReconcileLoop env n (cert :: rest) tr = ReconcileLoop env n rest tr := by
  rw [ReconcileLoop, h]

theorem ReconcileLoop_cons_late (env : Env) (n : CertNotification) (cert : Certificate)
    (rest : List Certificate) (tr : Trace) (notAfter : Time)
    (h : cert.Status.NotAfter = some notAfter)
    (hlate : ¬ notAfter - env.now tr ≤ n.Spec.ExpiryNotificationDays * Day) :
    ReconcileLoop env n (cert :: rest) tr = ReconcileLoop env n rest (tr ++ [Event.now]) := by
  rw [ReconcileLoop, h]
  simp only [daysToExpiry_le_iff, if_neg hlate]

theorem ReconcileLoop_cons_due (env : Env) (n : CertNotification) (cert : Certificate)
    (rest : List Certificate) (tr : Trace) (notAfter : Time)
    (h : cert.Status.NotAfter = some notAfter)
    (hdue : notAfter - env.now tr ≤ n.Spec.ExpiryNotificationDays * Day) :
    ReconcileLoop env n (cert :: rest) tr =
      match sendNotifications env n cert (tr ++ [Event.now]) with
      | (some err, tr2) => (some err, tr2)
      | (none, tr2) => ReconcileLoop env n rest tr2 := by
  rw [ReconcileLoop, h]
  simp only [daysToExpiry_le_iff, if_pos hdue]

/-- The loop only adds steps, and what it adds starts with a clock reading. -/
theorem ReconcileLoop_trace (env : Env) (n : CertNotification) (certs : List Certificate) :
    ∀ tr, ∃ ev, (ReconcileLoop env n certs tr).2 = tr ++ ev ∧
      (ev = [] ∨ ∃ ev2, ev = Event.now :: ev2) := by
  induction certs with
  | nil => intro tr; exact ⟨[], by simp [ReconcileLoop], Or.inl rfl⟩
  | cons cert rest ih =>
    intro tr
    cases hna : cert.Status.NotAfter with
    | none => rw [ReconcileLoop_cons_absent env n cert rest tr hna]; exact ih tr
    | some notAfter =>
      by_cases hdue : notAfter - env.now tr ≤ n.Spec.ExpiryNotificationDays * Day
      · rw [ReconcileLoop_cons_due env n cert rest tr notAfter hna hdue]
        obtain ⟨ev1, h1, -⟩ := sendNotifications_dispatched env n cert (tr ++ [Event.now])
        rcases hs : sendNotifications env n cert (tr ++ [Event.now]) with ⟨_ | e, t2⟩
        · rw [hs] at h1
          simp only at h1
          obtain ⟨ev2, h2, -⟩ := ih t2
          simp only
          rw [h2, h1]
          exact ⟨Event.now :: Event.sendNotifications cert :: (ev1 ++ ev2), by simp,
            Or.inr ⟨_, rfl⟩⟩
        · rw [hs] at h1
          simp only at h1
          simp only
          rw [h1]
          exact ⟨Event.now :: Event.sendNotifications cert :: ev1, by simp, Or.inr ⟨_, rfl⟩⟩
      · rw [ReconcileLoop_cons_late env n cert rest tr notAfter hna hdue]
        obtain ⟨ev2, h2, -⟩ := ih (tr ++ [Event.now])
        rw [h2]
        exact ⟨Event.now :: ev2, by simp, Or.inr ⟨_, rfl⟩⟩

/-- Running the loop over `pre ++ post` is running it over `pre` and, unless a
dispatch failed, over `post` from the trace reached. -/
theorem ReconcileLoop_append (env : Env) (n : CertNotification) (pre post : List Certificate) :
    ∀ tr, ReconcileLoop env n (pre ++ post) tr =
      match ReconcileLoop env n pre tr with
      | (some err, t) => (some err, t)
      | (none, t) => ReconcileLoop env n post t := by
  induction pre with
  | nil => intro tr; simp [ReconcileLoop]
  | cons cert rest ih =>
    intro tr
    cases hna : cert.Status.NotAfter with
    | none =>
      rw [List.cons_append, ReconcileLoop_cons_absent env n cert _ tr hna,
        ReconcileLoop_cons_absent env n cert _ tr hna]
      exact ih tr
    | some notAfter =>
      by_cases hdue : notAfter - env.now tr ≤ n.Spec.ExpiryNotificationDays * Day
      · rw [List.cons_append, ReconcileLoop_cons_due env n cert _ tr notAfter hna hdue,
          ReconcileLoop_cons_due env n cert _ tr notAfter hna hdue]
        rcases hs : sendNotifications env n cert (tr ++ [Event.now]) with ⟨_ | e, t2⟩
        · simp only
          exact ih t2
        · simp only
      · rw [List.cons_append, ReconcileLoop_cons_late env n cert _ tr notAfter hna hdue,
          ReconcileLoop_cons_late env n cert _ tr notAfter hna hdue]
        exact ih _

/-- Once the policy is loaded and the certificates are listed, the trace of
`Reconcile` is the trace of its loop. -/
theorem Reconcile_trace_of_listed (env : Env) (req : Request) (tr : Trace)
    (n : CertNotification) (certs : List Certificate)
    (hget : env.getCertNotification tr req.NamespacedName = .ok n)
    (hlist : env.listCertificates (tr ++ [Event.getCertNotification req.NamespacedName])
      = .ok certs) :
    (Reconcile env req tr).2
      = (ReconcileLoop env n certs
          (tr ++ [Event.getCertNotification req.NamespacedName, Event.listCertificates])).2 := by
  unfold Reconcile
  simp only [hget, hlist, List.append_assoc, List.singleton_append]
  split <;> simp_all

/-! ## The expiry decision -/

theorem dispatched_append (a b : Trace) : dispatched (a ++ b) = dispatched a ++ dispatched b := by
  induction a with
  | nil => rfl
  | cons x rest ih => cases x <;> simp [dispatched, ih]

/-- The loop does not read `listCertificates`: changing that answer of the
environment changes nothing in it. -/
theorem ReconcileLoop_listing_irrelevant (env : Env)
    (f : Trace → Except Err (List Certificate)) (n : CertNotification)
    (certs : List Certificate) :
    ∀ tr, ReconcileLoop { env with listCertificates := f } n certs tr
      = ReconcileLoop env n certs tr := by
  induction certs with
  | nil => intro tr; rfl
  | cons cert rest ih =>
    intro tr
    have hsend : sendNotifications { env with listCertificates := f } n cert (tr ++ [Event.now])
        = sendNotifications env n cert (tr ++ [Event.now]) := rfl
    rw [ReconcileLoop, ReconcileLoop]
    simp only [hsend, ih]

/-- The certificates the loop dispatches are listed ones with an expiry time. -/
theorem ReconcileLoop_dispatched_present (env : Env) (n : CertNotification)
    (certs : List Certificate) :
    ∀ tr, ∃ ev, (ReconcileLoop env n certs tr).2 = tr ++ ev ∧
      ∀ c ∈ dispatched ev, c ∈ certs ∧ c.Status.NotAfter ≠ none := by
  induction certs with
  | nil => intro tr; exact ⟨[], by simp [ReconcileLoop], by simp [dispatched]⟩
  | cons cert rest ih =>
    intro tr
    cases hna : cert.Status.NotAfter with
    | none =>
      rw [ReconcileLoop_cons_absent env n cert rest tr hna]
      obtain ⟨ev, h, hd⟩ := ih tr
      exact ⟨ev, h, fun c hc => ⟨List.mem_cons_of_mem _ (hd c hc).1, (hd c hc).2⟩⟩
    | some notAfter =>
      by_cases hdue : notAfter - env.now tr ≤ n.Spec.ExpiryNotificationDays * Day
      · rw [ReconcileLoop_cons_due env n cert rest tr notAfter hna hdue]
        obtain ⟨ev1, h1, hd1⟩ := sendNotifications_dispatched env n cert (tr ++ [Event.now])
        rcases hs : sendNotifications env n cert (tr ++ [Event.now]) with ⟨_ | e, t2⟩
        · rw [hs] at h1
          simp only at h1
          obtain ⟨ev2, h2, hd2⟩ := ih t2
          simp only
          rw [h2, h1]
          refine ⟨Event.now :: Event.sendNotifications cert :: (ev1 ++ ev2), by simp, ?_⟩
          intro c hc
          simp only [dispatched, dispatched_append, hd1, List.nil_append,
            List.mem_cons] at hc
          rcases hc with rfl | hc
          · exact ⟨List.mem_cons_self _ _, by simp [hna]⟩
          · exact ⟨List.mem_cons_of_mem _ (hd2 c hc).1, (hd2 c hc).2⟩
        · rw [hs] at h1
          simp only at h1
          simp only
          rw [h1]
          refine ⟨Event.now :: Event.sendNotifications cert :: ev1, by simp, ?_⟩
          intro c hc
          simp only [dispatched, hd1, List.mem_singleton] at hc
          rw [hc]
          exact ⟨List.mem_cons_self _ _, by simp [hna]⟩
      · rw [ReconcileLoop_cons_late env n cert rest tr notAfter hna hdue]
        obtain ⟨ev2, h2, hd2⟩ := ih (tr ++ [Event.now])
        rw [h2]
        refine ⟨Event.now :: ev2, by simp, ?_⟩
        intro c hc
        simp only [dispatched] at hc
        exact ⟨List.mem_cons_of_mem _ (hd2 c hc).1, (hd2 c hc).2⟩

/-- C7: a certificate whose `Status.NotAfter` is absent never triggers.  Let
the policy be loaded (with any threshold) and the listing be
`pre ++ cert :: post` with `cert.Status.NotAfter` absent.  Then `Reconcile`
enters `sendNotifications` only for certificates with an expiry time, so not
for `cert`; and its result and its whole trace are those of the same cycle with
`cert` taken out of the listing: `cert` adds no step and no error. -/
theorem Reconcile_absent_notAfter (env : Env) (req : Request) (tr : Trace)
    (n : CertNotification) (pre post : List Certificate) (cert : Certificate)
    (hget : env.getCertNotification tr req.NamespacedName = .ok n)
    (hlist : env.listCertificates (tr ++ [Event.getCertNotification req.NamespacedName])
      = .ok (pre ++ cert :: post))
    (hc : cert.Status.NotAfter = none) :
    (∃ ev, (Reconcile env req tr).2 = tr ++ ev ∧
      (∀ c ∈ dispatched ev, c.Status.NotAfter ≠ none) ∧ cert ∉ dispatched ev) ∧
    Reconcile { env with listCertificates := fun _ => .ok (pre ++ post) } req tr
      = Reconcile env req tr := by
  refine ⟨?_, ?_⟩
  · rw [Reconcile_trace_of_listed env req tr n _ hget hlist]
    obtain ⟨ev, h, hd⟩ := ReconcileLoop_dispatched_present env n (pre ++ cert :: post)
      (tr ++ [Event.getCertNotification req.NamespacedName, Event.listCertificates])
    rw [h]
    refine ⟨[Event.getCertNotification req.NamespacedName, Event.listCertificates] ++ ev,
      by simp, ?_, ?_⟩
    · intro c hcd
      simp only [dispatched_append, dispatched, List.nil_append] at hcd
      exact (hd c hcd).2
    · intro hcd
      simp only [dispatched_append, dispatched, List.nil_append] at hcd
      exact (hd cert hcd).2 hc
  · unfold Reconcile
    simp only [hget, hlist, ReconcileLoop_listing_irrelevant]
    rw [ReconcileLoop_append env n pre (cert :: post), ReconcileLoop_append env n pre post]
    simp only [ReconcileLoop_cons_absent env n cert post _ hc]

/-- C7 (witness): a certificate without expiry listed between two others. -/
theorem Reconcile_absent_notAfter_witness :
    (mkCert "new" none).Status.NotAfter = none ∧
    Reconcile
        { storeEnv [sampleSecret] samplePolicy
            [mkCert "web" (some 0), mkCert "new" none, mkCert "db" (some 0)] 0 with
          listCertificates := fun _ => .ok ([mkCert "web" (some 0)] ++ [mkCert "db" (some 0)]) }
        ⟨⟨"ops", "policy"⟩⟩ []
      = Reconcile
          (storeEnv [sampleSecret] samplePolicy
            [mkCert "web" (some 0), mkCert "new" none, mkCert "db" (some 0)] 0)
          ⟨⟨"ops", "policy"⟩⟩ [] :=
  ⟨rfl,
    (Reconcile_absent_notAfter
      (storeEnv [sampleSecret] samplePolicy
        [mkCert "web" (some 0), mkCert "new" none, mkCert "db" (some 0)] 0)
      ⟨⟨"ops", "policy"⟩⟩ [] samplePolicy [mkCert "web" (some 0)] [mkCert "db" (some 0)]
      (mkCert "new" none) rfl rfl rfl).2⟩

/-! ## The dispatches of a cycle -/

theorem not_mem_of_dispatched_nil (ev : Trace) (c : Certificate) (h : dispatched ev = []) :
    Event.sendNotifications c ∉ ev := by
  induction ev with
  | nil => simp
  | cons x rest ih =>
    cases x <;> simp_all [dispatched]

/-- Every entry into `sendNotifications` recorded by the loop is a call that
either returned a nil error or is the last thing the loop did, its outcome
being the outcome of the loop. -/
theorem ReconcileLoop_dispatches (env : Env) (n : CertNotification) (certs : List Certificate) :
    ∀ tr before c after,
      (ReconcileLoop env n certs tr).2 = tr ++ before ++ Event.sendNotifications c :: after →
      (sendNotifications env n c (tr ++ before)).1 = none ∨
        sendNotifications env n c (tr ++ before) = ReconcileLoop env n certs tr := by
  induction certs with
  | nil =>
    intro tr before c after h
    simp [ReconcileLoop] at h
  | cons cert rest ih =>
    intro tr before c after h
    cases hna : cert.Status.NotAfter with
    | none =>
      rw [ReconcileLoop_cons_absent env n cert rest tr hna] at h ⊢
      exact ih tr before c after h
    | some notAfter =>
      by_cases hdue : notAfter - env.now tr ≤ n.Spec.ExpiryNotificationDays * Day
      · rw [ReconcileLoop_cons_due env n cert rest tr notAfter hna hdue] at h ⊢
        obtain ⟨ev1, h1, hd1⟩ := sendNotifications_dispatched env n cert (tr ++ [Event.now])
        rcases hs : sendNotifications env n cert (tr ++ [Event.now]) with ⟨_ | e, t2⟩
        · rw [hs] at h1 h
          simp only at h1 h ⊢
          obtain ⟨ev2, h2, -⟩ := ReconcileLoop_trace env n rest t2
          have h3 : Event.now :: Event.sendNotifications cert :: (ev1 ++ ev2)
              = before ++ Event.sendNotifications c :: after := by
            apply @List.append_cancel_left _ tr
            rw [← List.append_assoc, ← h, h2, h1]
            simp
          cases before with
          | nil => simp at h3
          | cons x b1 =>
            simp only [List.cons_append, List.cons.injEq] at h3
            obtain ⟨rfl, h4⟩ := h3
            cases b1 with
            | nil =>
              simp only [List.nil_append, List.cons.injEq, Event.sendNotifications.injEq] at h4
              obtain ⟨rfl, -⟩ := h4
              left
              rw [hs]
            | cons y b2 =>
              simp only [List.cons_append, List.cons.injEq] at h4
              obtain ⟨rfl, h5⟩ := h4
              have key : ∃ a2, b2 = ev1 ++ a2 ∧ ev2 = a2 ++ Event.sendNotifications c :: after := by
                rw [List.append_eq_append_iff] at h5
                rcases h5 with ⟨a2, hb2, hev2⟩ | ⟨c2, hev1, hc2⟩
                · exact ⟨a2, hb2, hev2⟩
                · cases c2 with
                  | nil => exact ⟨[], by simpa using hev1.symm, by simpa using hc2.symm⟩
                  | cons z c3 =>
                    exfalso
                    simp only [List.cons_append, List.cons.injEq] at hc2
                    apply not_mem_of_dispatched_nil ev1 c hd1
                    rw [hev1, ← hc2.1]
                    simp
              obtain ⟨a2, hb2, hev2⟩ := key
              have h6 := ih t2 a2 c after (by rw [h2, hev2, List.append_assoc])
              have h7 : tr ++ Event.now :: Event.sendNotifications cert :: b2 = t2 ++ a2 := by
                rw [h1, hb2]; simp
              rw [h7]
              exact h6
        · rw [hs] at h1 h
          simp only at h1 h ⊢
          have h3 : Event.now :: Event.sendNotifications cert :: ev1
              = before ++ Event.sendNotifications c :: after := by
            apply @List.append_cancel_left _ tr
            rw [← List.append_assoc, ← h, h1]
            simp
          cases before with
          | nil => simp at h3
          | cons x b1 =>
            simp only [List.cons_append, List.cons.injEq] at h3
            obtain ⟨rfl, h4⟩ := h3
            cases b1 with
            | nil =>
              simp only [List.nil_append, List.cons.injEq, Event.sendNotifications.injEq] at h4
              obtain ⟨rfl, -⟩ := h4
              right
              rw [hs]
            | cons y b2 =>
              simp only [List.cons_append, List.cons.injEq] at h4
              obtain ⟨rfl, h5⟩ := h4
              exfalso
              apply not_mem_of_dispatched_nil ev1 c hd1
              rw [h5]
              simp
      · rw [ReconcileLoop_cons_late env n cert rest tr notAfter hna hdue] at h ⊢
        obtain ⟨ev2, h2, -⟩ := ReconcileLoop_trace env n rest (tr ++ [Event.now])
        have h3 : Event.now :: ev2 = before ++ Event.sendNotifications c :: after := by
          apply @List.append_cancel_left _ tr
          rw [← List.append_assoc, ← h, h2]
          simp
        cases before with
        | nil => simp at h3
        | cons x b1 =>
          simp only [List.cons_append, List.cons.injEq] at h3
          obtain ⟨rfl, h4⟩ := h3
          have h6 := ih (tr ++ [Event.now]) b1 c after (by rw [h2, h4]; simp)
          have h7 : tr ++ Event.now :: b1 = tr ++ [Event.now] ++ b1 := by simp
          rw [h7]
          exact h6

/-- When the loop returns an error, that error is the one of the last
`sendNotifications` call, and the loop stopped where that call stopped. -/
theorem ReconcileLoop_error (env : Env) (n : CertNotification) (certs : List Certificate) :
    ∀ tr e, (ReconcileLoop env n certs tr).1 = some e →
      ∃ before c after,
        (ReconcileLoop env n certs tr).2 = tr ++ before ++ Event.sendNotifications c :: after ∧
        dispatched after = [] ∧
        sendNotifications env n c (tr ++ before) = ReconcileLoop env n certs tr := by
  induction certs with
  | nil => intro tr e h; simp [ReconcileLoop] at h
  | cons cert rest ih =>
    intro tr e h
    cases hna : cert.Status.NotAfter with
    | none =>
      rw [ReconcileLoop_cons_absent env n cert rest tr hna] at h ⊢
      exact ih tr e h
    | some notAfter =>
      by_cases hdue : notAfter - env.now tr ≤ n.Spec.ExpiryNotificationDays * Day
      · rw [ReconcileLoop_cons_due env n cert rest tr notAfter hna hdue] at h ⊢
        obtain ⟨ev1, h1, hd1⟩ := sendNotifications_dispatched env n cert (tr ++ [Event.now])
        rcases hs : sendNotifications env n cert (tr ++ [Event.now]) with ⟨_ | e2, t2⟩
        · rw [hs] at h1 h
          simp only at h1 h ⊢
          obtain ⟨before, c, after, h2, h3, h4⟩ := ih t2 e h
          refine ⟨Event.now :: Event.sendNotifications cert :: (ev1 ++ before), c, after,
            ?_, h3, ?_⟩
          · rw [h2, h1]; simp
          · rw [← h4, h1]; simp
        · rw [hs] at h1
          simp only at h1 ⊢
          exact ⟨[Event.now], cert, ev1, by simp [h1], hd1, hs⟩
      · rw [ReconcileLoop_cons_late env n cert rest tr notAfter hna hdue] at h ⊢
        obtain ⟨before, c, after, h2, h3, h4⟩ := ih (tr ++ [Event.now]) e h
        refine ⟨Event.now :: before, c, after, ?_, h3, ?_⟩
        · rw [h2]; simp
        · rw [← h4]; simp

/-- Once the policy is loaded and the certificates are listed, `Reconcile`
returns the error of its loop, with the 24 hour requeue when there is none and
the zero `Result` otherwise, and the trace of its loop. -/
theorem Reconcile_of_listed (env : Env) (req : Request) (tr : Trace)
    (n : CertNotification) (certs : List Certificate)
    (hget : env.getCertNotification tr req.NamespacedName = .ok n)
    (hlist : env.listCertificates (tr ++ [Event.getCertNotification req.NamespacedName])
      = .ok certs) :
    Reconcile env req tr
      = ((if (ReconcileLoop env n certs
            (tr ++ [Event.getCertNotification req.NamespacedName,
              Event.listCertificates])).1 = none
          then { RequeueAfter := 24 * Hour } else {},
          (ReconcileLoop env n certs
            (tr ++ [Event.getCertNotification req.NamespacedName,
              Event.listCertificates])).1),
        (ReconcileLoop env n certs
          (tr ++ [Event.getCertNotification req.NamespacedName,
            Event.listCertificates])).2) := by
  unfold Reconcile
  simp only [hget, hlist, List.append_assoc, List.singleton_append]
  split <;> simp_all

/-- Every entry into `sendNotifications` recorded by a cycle is a call that
either returned a nil error or is the last thing the cycle did, its error and
its trace being those `Reconcile` returns. -/
theorem Reconcile_dispatches (env : Env) (req : Request) (tr : Trace)
    (n : CertNotification) (certs : List Certificate)
    (hget : env.getCertNotification tr req.NamespacedName = .ok n)
    (hlist : env.listCertificates (tr ++ [Event.getCertNotification req.NamespacedName])
      = .ok certs)
    (before : Trace) (c : Certificate) (after : Trace)
    (h : (Reconcile env req tr).2 = tr ++ before ++ Event.sendNotifications c :: after) :
    (sendNotifications env n c (tr ++ before)).1 = none ∨
      sendNotifications env n c (tr ++ before)
        = ((Reconcile env req tr).1.2, (Reconcile env req tr).2) := by
  rw [Reconcile_of_listed env req tr n certs hget hlist] at h ⊢
  simp only at h ⊢
  obtain ⟨ev, h2, -⟩ := ReconcileLoop_trace env n certs
    (tr ++ [Event.getCertNotification req.NamespacedName, Event.listCertificates])
  have h3 : Event.getCertNotification req.NamespacedName :: Event.listCertificates :: ev
      = before ++ Event.sendNotifications c :: after := by
    apply @List.append_cancel_left _ tr
    rw [← List.append_assoc, ← h, h2]
    simp
  cases before with
  | nil => simp at h3
  | cons x b1 =>
    simp only [List.cons_append, List.cons.injEq] at h3
    obtain ⟨rfl, h4⟩ := h3
    cases b1 with
    | nil => simp at h4
    | cons y b2 =>
      simp only [List.cons_append, List.cons.injEq] at h4
      obtain ⟨rfl, h5⟩ := h4
      have h6 := ReconcileLoop_dispatches env n certs
        (tr ++ [Event.getCertNotification req.NamespacedName, Event.listCertificates])
        b2 c after (by rw [h2, h5]; simp)
      have h7 : tr ++ Event.getCertNotification req.NamespacedName ::
          Event.listCertificates :: b2
          = tr ++ [Event.getCertNotification req.NamespacedName, Event.listCertificates]
            ++ b2 := by simp
      rw [h7]
      exact h6

/-- When a cycle returns an error after listing, that error is the one of its
last `sendNotifications` call, and the cycle stopped where that call stopped. -/
theorem Reconcile_error_dispatch (env : Env) (req : Request) (tr : Trace)
    (n : CertNotification) (certs : List Certificate)
    (hget : env.getCertNotification tr req.NamespacedName = .ok n)
    (hlist : env.listCertificates (tr ++ [Event.getCertNotification req.NamespacedName])
      = .ok certs)
    (e : Err) (he : (Reconcile env req tr).1.2 = some e) :
    ∃ before c after,
      (Reconcile env req tr).2 = tr ++ before ++ Event.sendNotifications c :: after ∧
      dispatched after = [] ∧
      sendNotifications env n c (tr ++ before) = (some e, (Reconcile env req tr).2) := by
  rw [Reconcile_of_listed env req tr n certs hget hlist] at he ⊢
  simp only at he ⊢
  obtain ⟨before, c, after, h2, h3, h4⟩ := ReconcileLoop_error env n certs _ e he
  refine ⟨[Event.getCertNotification req.NamespacedName, Event.listCertificates] ++ before,
    c, after, ?_, h3, ?_⟩
  · rw [h2]; simp
  · rw [← he, ← List.append_assoc, h4]

/-! ## Requeue policy -/

/-- C4: the requeue policy of `Reconcile`, for a policy that exists.  If the
listing fails, `Reconcile` returns that error with the zero `Result`.  If the
listing succeeds and every `sendNotifications` call of the cycle returned a nil
error, it returns a nil error with `RequeueAfter` of exactly 24 hours.  If some
`sendNotifications` call of the cycle returned an error, it returns that error
with the zero `Result` (`Requeue = false`, `RequeueAfter = 0`). -/
theorem Reconcile_requeue (env : Env) (req : Request) (tr : Trace) (n : CertNotification)
    (hget : env.getCertNotification tr req.NamespacedName = .ok n) :
    (∀ e, env.listCertificates (tr ++ [Event.getCertNotification req.NamespacedName])
        = .error e →
      (Reconcile env req tr).1 = ({ Requeue := false, RequeueAfter := 0 }, some e)) ∧
    (∀ certs, env.listCertificates (tr ++ [Event.getCertNotification req.NamespacedName])
        = .ok certs →
      ((∀ before c after,
          (Reconcile env req tr).2 = tr ++ before ++ Event.sendNotifications c :: after →
          (sendNotifications env n c (tr ++ before)).1 = none) →
        (Reconcile env req tr).1
          = ({ Requeue := false, RequeueAfter := 24 * Hour }, none)) ∧
      (∀ before c after e,
          (Reconcile env req tr).2 = tr ++ before ++ Event.sendNotifications c :: after →
          (sendNotifications env n c (tr ++ before)).1 = some e →
        (Reconcile env req tr).1 = ({ Requeue := false, RequeueAfter := 0 }, some e))) := by
  refine ⟨?_, ?_⟩
  · intro e hlist
    unfold Reconcile
    simp only [hget, hlist]
  · intro certs hlist
    have hrec := Reconcile_of_listed env req tr n certs hget hlist
    refine ⟨?_, ?_⟩
    · intro hall
      cases herr : (Reconcile env req tr).1.2 with
      | none =>
        rw [hrec] at herr ⊢
        simp only at herr
        simp only [herr, if_true]
      | some e =>
        obtain ⟨before, c, after, h1, -, h2⟩ :=
          Reconcile_error_dispatch env req tr n certs hget hlist e herr
        have h3 := hall before c after h1
        rw [h2] at h3
        simp at h3
    · intro before c after e hsplit hfail
      rcases Reconcile_dispatches env req tr n certs hget hlist before c after hsplit with
        h1 | h1
      · rw [h1] at hfail
        simp at hfail
      · rw [h1] at hfail
        simp only at hfail
        rw [hrec] at hfail ⊢
        simp only at hfail
        simp only [hfail]
        simp

/-- C4 (witness): a cycle over a store that holds the credentials returns a
nil error with a requeue after 24 hours; the same cycle over an empty store
returns the NotFound error with the zero `Result`. -/
theorem Reconcile_requeue_witness :
    (Reconcile (storeEnv [sampleSecret] samplePolicy [mkCert "web" (some 0)] 0)
        ⟨⟨"ops", "policy"⟩⟩ []).1
      = ({ Requeue := false, RequeueAfter := 86400000000000 }, none) ∧
    (Reconcile (storeEnv [] samplePolicy [mkCert "web" (some 0)] 0)
        ⟨⟨"ops", "policy"⟩⟩ []).1
      = ({ Requeue := false, RequeueAfter := 0 },
          some (Err.notFound "secrets \"creds\" not found")) :=
  ⟨((Reconcile_requeue (storeEnv [sampleSecret] samplePolicy [mkCert "web" (some 0)] 0)
        ⟨⟨"ops", "policy"⟩⟩ [] samplePolicy rfl).2 [mkCert "web" (some 0)] rfl).1
      (fun _ _ _ _ => rfl),
    ((Reconcile_requeue (storeEnv [] samplePolicy [mkCert "web" (some 0)] 0)
        ⟨⟨"ops", "policy"⟩⟩ [] samplePolicy rfl).2 [mkCert "web" (some 0)] rfl).2
      [Event.getCertNotification ⟨"ops", "policy"⟩, Event.listCertificates, Event.now]
      (mkCert "web" (some 0))
      [Event.getSecret ⟨"default", "creds"⟩]
      (Err.notFound "secrets \"creds\" not found")
      (by norm_num [Reconcile, storeEnv, ReconcileLoop, Time.Sub, Duration.Hours, samplePolicy,
        mkCert, Hour, sendNotifications, sendEmail, getSecretValue, StoreGet])
      rfl⟩

end CertNotifier
